import Mathlib

/-!
Shallow embedding of `src/main.rs` of clippy-lintcheck: a thin orchestration
script that shells out to `cargo dev-lintcheck`, copies the produced log into
`logs/`, and asserts substring properties of the log text.

External effects (subprocess outcomes, filesystem contents, `git diff` output,
temp-file paths) are supplied by an oracle structure `World`.  Each embedded
operation returns the list of observable events it performed (subprocess
launches, file copies, temp-config creations), paired with `none` on success or
`some a` when the Rust code panics / aborts with `a`.  Local temp-file writes
(`writeln!`) are modelled as infallible; every fallible step the claims talk
about (tool launch, exit status, log copy, log read, byte slicing, assertions)
is modelled explicitly.
-/

namespace Lintcheck

/-- Rust `str::ends_with`: `pat` is a suffix of `s`. -/
def strEndsWith (s pat : String) : Bool := decide (pat.data <:+ s.data)

/-- Rust `str::contains`: `pat` occurs as a contiguous substring of `s`. -/
def strContains (s pat : String) : Bool := decide (pat.data <:+: s.data)

/-- Split a character list at every occurrence of `sep` (the pieces do not
contain `sep`; `n` separators yield `n + 1` pieces). -/
def splitOnChar (sep : Char) : List Char → List (List Char)
  | [] => [[]]
  | c :: rest =>
    let r := splitOnChar sep rest
    if c = sep then [] :: r
    else
      match r with
      | [] => [[c]]
      | h :: t => (c :: h) :: t

/-- Rust `Path::file_stem` (on the paths this program uses): last `/`-separated
component, with the extension after the final `.` removed; a name whose only
`.` is the leading one is its own stem. -/
def fileStem (p : String) : String :=
  let base := (splitOnChar '/' p.data).getLastD []
  let parts := splitOnChar '.' base
  match parts with
  | [] => String.mk base
  | [_] => String.mk base
  | [[], _] => String.mk base
  | _ => String.mk (List.intercalate ['.'] parts.dropLast)

/-- The captured result of `Command::output()`: whether the command could be
launched at all, its exit status, and captured stdout/stderr text. -/
structure CmdResult where
  launchOk : Bool
  exitSuccess : Bool
  status : Int
  stdout : String
  stderr : String

/-- Oracle for everything outside the program: the external tool's behaviour
keyed by the config path passed in `LINTCHECK_TOML`, filesystem copy/read
outcomes, the `git diff origin/main -- config/<name>.toml` output split into
lines, the (random) paths of created temp files, and the result of
canonicalizing `rust-clippy`. -/
structure World where
  tool : String → CmdResult
  copyOk : String → String → Bool
  readFile : String → Option String
  diffLines : String → List String
  tempPath : String → String
  canon : Option String

/-- Observable side effects, in execution order. -/
inductive Event where
  | invokeTool (config : String)
  | copyLog (src : String) (dst : String)
  | createTempConfig (name : String)
deriving DecidableEq, Repr

/-- The ways the Rust process aborts (panic / `assert!` failure / arg-parse
error exit). -/
inductive Abort where
  | launchFailed
  | toolNonZero (status : Int) (stderr : String)
  | copyFailed
  | readFailed (path : String)
  | assertFailed
  | sliceOutOfBounds
  | canonFailed
  | parseError (msg : String)
deriving DecidableEq, Repr

/-- `tr.copiesTo dst`: some completed `fs::copy` in the trace wrote `dst`. -/
def copiesTo (tr : List Event) (dst : String) : Bool :=
  tr.any fun e =>
    match e with
    | .copyLog _ d => d == dst
    | _ => false

/-- The `Mode` enum. -/
inductive Mode where
  | All
  | Passes
  | Integration
  | CI
deriving DecidableEq, Repr

/-- `impl FromStr for Mode`: exact lowercase literals, anything else is
`Err(format!("Invalid option {}", s))`. -/
def Mode.from_str (s : String) : Except String Mode :=
  if s = "all" then .ok .All
  else if s = "passes" then .ok .Passes
  else if s = "integration" then .ok .Integration
  else if s = "ci" then .ok .CI
  else .error ("Invalid option " ++ s)

/-- Source of the `fs::copy` in `fn check`:
`<clippy_path>/lintcheck-logs/<stem>_logs.txt`. -/
def srcPath (clippy_path config : String) : String :=
  clippy_path ++ "/lintcheck-logs/" ++ fileStem config ++ "_logs.txt"

/-- Destination of the `fs::copy` in `fn check`:
`logs/<output override or stem>_logs.txt`. -/
def dstPath (config : String) (output : Option String) : String :=
  "logs/" ++ output.getD (fileStem config) ++ "_logs.txt"

/-- `fn check`: run `cargo dev-lintcheck` with `LINTCHECK_TOML = config` in
`clippy_path`; panic if it cannot be launched or exits non-zero (surfacing
status and stderr); otherwise copy `srcPath` to `dstPath`, panicking if the
copy fails. -/
def check (w : World) (clippy_path config : String) (output : Option String) :
    List Event × Option Abort :=
  let res := w.tool config
  if res.launchOk = false then
    ([Event.invokeTool config], some Abort.launchFailed)
  else if res.exitSuccess = false then
    ([Event.invokeTool config], some (Abort.toolNonZero res.status res.stderr))
  else
    if w.copyOk (srcPath clippy_path config) (dstPath config output) then
      ([Event.invokeTool config,
        Event.copyLog (srcPath clippy_path config) (dstPath config output)], none)
    else
      ([Event.invokeTool config], some Abort.copyFailed)

/-- `fn check_integration`: run `check` on `../config/integration.toml`, read
`logs/integration_logs.txt`, `assert!` the text ends with `"ICEs:\n"`. -/
def check_integration (w : World) (clippy_path : String) : List Event × Option Abort :=
  match check w clippy_path "../config/integration.toml" none with
  | (tr, some a) => (tr, some a)
  | (tr, none) =>
    match w.readFile "logs/integration_logs.txt" with
    | none => (tr, some (Abort.readFailed "logs/integration_logs.txt"))
    | some log =>
      if strEndsWith log "ICEs:\n" then (tr, none)
      else (tr, some Abort.assertFailed)

/-- `fn check_passes`: run `check` on `../config/passes.toml`, read
`logs/passes_logs.txt`, `assert!` the text does not contain `"clippy::"` and
ends with `"ICEs:\n"`. -/
def check_passes (w : World) (clippy_path : String) : List Event × Option Abort :=
  match check w clippy_path "../config/passes.toml" none with
  | (tr, some a) => (tr, some a)
  | (tr, none) =>
    match w.readFile "logs/passes_logs.txt" with
    | none => (tr, some (Abort.readFailed "logs/passes_logs.txt"))
    | some log =>
      if !strContains log "clippy::" && strEndsWith log "ICEs:\n" then (tr, none)
      else (tr, some Abort.assertFailed)

/-- Predicate of `grep -E "^\+\w+"` on one line: first byte `+`, second
character a word character (`[A-Za-z0-9_]`). -/
def matchesAddedWord (l : String) : Bool :=
  match l.data with
  | c1 :: c2 :: _ => c1 == '+' && (c2.isAlphanum || c2 == '_')
  | _ => false

/-- `grep -E "^\+\w+"` over the diff output, line by line. -/
def grepAddedLines (lines : List String) : List String :=
  lines.filter matchesAddedWord

/-- Rust `&l[1..]`: the byte slice of `l` from byte index 1.  `none` models the
panic when `l` is empty or byte 1 is not a char boundary (the first character
is not a single UTF-8 byte). -/
def sliceFrom1 (l : String) : Option String :=
  match l.data with
  | [] => none
  | c :: rest => if c.toNat < 128 then some (String.mk rest) else none

/-- The `for l in stdout.lines().map(|l| &l[1..])` loop: slice every line,
`none` as soon as one slice panics. -/
def sliceLines : List String → Option (List String)
  | [] => some []
  | l :: rest =>
    match sliceFrom1 l, sliceLines rest with
    | some r, some rs => some (r :: rs)
    | _, _ => none

/-- Content written by `fn create_temp_config` to the temp file, taking the
`git diff` output lines as input: the `[crates]` header, then each
grep-surviving line with its first byte sliced off, each followed by a
newline.  `none` models a panic of `&l[1..]`. -/
def create_temp_config_content (diffLines : List String) : Option String :=
  (sliceLines (grepAddedLines diffLines)).map fun ls =>
    "[crates]\n" ++ String.join (ls.map (· ++ "\n"))

/-- The second half of `fn check_ci` (everything after the passes assertion
succeeded): derive the temp config for `"integration"`, run `check` with the
`"ci_integration"` override, read `logs/ci_integration_logs.txt` and `assert!`
it ends with `"ICEs:\n"`. -/
def check_ci_integration (w : World) (clippy_path : String) : List Event × Option Abort :=
  match create_temp_config_content (w.diffLines "config/integration.toml") with
  | none => ([Event.createTempConfig "integration"], some Abort.sliceOutOfBounds)
  | some _ =>
    match check w clippy_path (w.tempPath "integration") (some "ci_integration") with
    | (tr, some a) => (Event.createTempConfig "integration" :: tr, some a)
    | (tr, none) =>
      match w.readFile "logs/ci_integration_logs.txt" with
      | none =>
        (Event.createTempConfig "integration" :: tr,
         some (Abort.readFailed "logs/ci_integration_logs.txt"))
      | some logi =>
        if strEndsWith logi "ICEs:\n" then (Event.createTempConfig "integration" :: tr, none)
        else (Event.createTempConfig "integration" :: tr, some Abort.assertFailed)

/-- `fn check_ci`: derive the temp config for `"passes"`, run `check` with
output override `"ci_passes"`, read and `assert!` the passes conditions on
`logs/ci_passes_logs.txt`; then the same for `"integration"` with override
`"ci_integration"` and the integration condition
(`check_ci_integration`). -/
def check_ci (w : World) (clippy_path : String) : List Event × Option Abort :=
  match create_temp_config_content (w.diffLines "config/passes.toml") with
  | none => ([Event.createTempConfig "passes"], some Abort.sliceOutOfBounds)
  | some _ =>
    match check w clippy_path (w.tempPath "passes") (some "ci_passes") with
    | (tr1, some a) => (Event.createTempConfig "passes" :: tr1, some a)
    | (tr1, none) =>
      match w.readFile "logs/ci_passes_logs.txt" with
      | none =>
        (Event.createTempConfig "passes" :: tr1,
         some (Abort.readFailed "logs/ci_passes_logs.txt"))
      | some logp =>
        if !strContains logp "clippy::" && strEndsWith logp "ICEs:\n" then
          match check_ci_integration w clippy_path with
          | (tr2, ab) => (Event.createTempConfig "passes" :: tr1 ++ tr2, ab)
        else (Event.createTempConfig "passes" :: tr1, some Abort.assertFailed)

/-- The `match opt.mode` dispatch in `fn main`. -/
def run_mode (w : World) (clippy_path : String) : Mode → List Event × Option Abort
  | Mode.All =>
    match check_integration w clippy_path with
    | (tr1, some a) => (tr1, some a)
    | (tr1, none) =>
      match check_passes w clippy_path with
      | (tr2, ab) => (tr1 ++ tr2, ab)
  | Mode.Passes => check_passes w clippy_path
  | Mode.Integration => check_integration w clippy_path
  | Mode.CI => check_ci w clippy_path

/-- `fn main`: parse the `--mode` flag (structopt exits with the `FromStr`
error on a bad token, before anything else runs), canonicalize `rust-clippy`
(`.unwrap()`), then dispatch on the mode. -/
def main_prog (w : World) (modeArg : String) : List Event × Option Abort :=
  match Mode.from_str modeArg with
  | .error e => ([], some (Abort.parseError e))
  | .ok m =>
    match w.canon with
    | none => ([], some Abort.canonFailed)
    | some clippy_path => run_mode w clippy_path m

/-! Concrete demonstration oracles, used by the witness theorems. -/

/-- An oracle where every external step succeeds: the tool always exits 0,
copies succeed, the integration log contains a lint finding but ends with the
crash terminator, the passes-style logs are clean, and both diffs are
empty. -/
def wOk : World where
  tool := fun _ => { launchOk := true, exitSuccess := true, status := 0, stdout := "", stderr := "" }
  copyOk := fun _ _ => true
  readFile := fun p =>
    if p = "logs/integration_logs.txt" then some "clippy::x\nICEs:\n"
    else if p = "logs/passes_logs.txt" then some "ICEs:\n"
    else if p = "logs/ci_passes_logs.txt" then some "ICEs:\n"
    else if p = "logs/ci_integration_logs.txt" then some "stuff\nICEs:\n"
    else none
  diffLines := fun _ => []
  tempPath := fun n => "tmp/" ++ n
  canon := some "clippy"

/-- Like `wOk` but the external tool exits with status 101. -/
def wToolFail : World :=
  { wOk with
    tool := fun _ =>
      { launchOk := true, exitSuccess := false, status := 101, stdout := "", stderr := "boom" } }

/-- Like `wOk` but the passes log contains a lint finding. -/
def wBadPassesLog : World :=
  { wOk with
    readFile := fun p =>
      if p = "logs/passes_logs.txt" then some "clippy::warn\nICEs:\n" else wOk.readFile p }

/-- Like `wOk` but the ci_passes log contains a lint finding. -/
def wBadCiPassesLog : World :=
  { wOk with
    readFile := fun p =>
      if p = "logs/ci_passes_logs.txt" then some "clippy::warn\nICEs:\n" else wOk.readFile p }

/-! Helper lemmas. -/

/-- A token equal to none of the four literals parses to the formatted
error. -/
theorem from_str_eq_error (s : String) (h1 : s ≠ "all") (h2 : s ≠ "passes")
    (h3 : s ≠ "integration") (h4 : s ≠ "ci") :
    Mode.from_str s = .error ("Invalid option " ++ s) := by
  simp [Mode.from_str, h1, h2, h3, h4]

/-- A line accepted by the grep pattern starts with the one-byte character
`+`, so slicing off the first byte succeeds and drops exactly that marker. -/
theorem matchesAddedWord_sliceFrom1 (l : String) (h : matchesAddedWord l = true) :
    ∃ r, sliceFrom1 l = some r ∧ l.data = '+' :: r.data := by
  obtain ⟨cs⟩ := l
  match cs with
  | [] => simp [matchesAddedWord] at h
  | [c1] => simp [matchesAddedWord] at h
  | c1 :: c2 :: t =>
    simp only [matchesAddedWord, Bool.and_eq_true, beq_iff_eq] at h
    obtain ⟨hc1, -⟩ := h
    subst hc1
    exact ⟨String.mk (c2 :: t), by simp [sliceFrom1], rfl⟩

/-- If every line slices successfully, the whole loop does. -/
theorem sliceLines_all_some (ls : List String) (h : ∀ l ∈ ls, ∃ r, sliceFrom1 l = some r) :
    ∃ rs, sliceLines ls = some rs := by
  induction ls with
  | nil => exact ⟨[], rfl⟩
  | cons a t ih =>
    obtain ⟨r, hr⟩ := h a (List.mem_cons_self a t)
    obtain ⟨rs, hrs⟩ := ih fun l hl => h l (List.mem_cons_of_mem a hl)
    exact ⟨r :: rs, by simp [sliceLines, hr, hrs]⟩

/-- Complete case analysis of `check`: launch failure, non-zero exit, copy
success, copy failure. -/
theorem check_cases (w : World) (cp cfg : String) (out : Option String) :
    ((w.tool cfg).launchOk = false ∧
      check w cp cfg out = ([Event.invokeTool cfg], some Abort.launchFailed)) ∨
    ((w.tool cfg).launchOk = true ∧ (w.tool cfg).exitSuccess = false ∧
      check w cp cfg out =
        ([Event.invokeTool cfg],
         some (Abort.toolNonZero (w.tool cfg).status (w.tool cfg).stderr))) ∨
    ((w.tool cfg).launchOk = true ∧ (w.tool cfg).exitSuccess = true ∧
      w.copyOk (srcPath cp cfg) (dstPath cfg out) = true ∧
      check w cp cfg out =
        ([Event.invokeTool cfg, Event.copyLog (srcPath cp cfg) (dstPath cfg out)], none)) ∨
    ((w.tool cfg).launchOk = true ∧ (w.tool cfg).exitSuccess = true ∧
      w.copyOk (srcPath cp cfg) (dstPath cfg out) = false ∧
      check w cp cfg out = ([Event.invokeTool cfg], some Abort.copyFailed)) := by
  cases hl : (w.tool cfg).launchOk with
  | false => exact Or.inl ⟨rfl, by simp [check, hl]⟩
  | true =>
    cases he : (w.tool cfg).exitSuccess with
    | false => exact Or.inr (Or.inl ⟨rfl, rfl, by simp [check, hl, he]⟩)
    | true =>
      cases hc : w.copyOk (srcPath cp cfg) (dstPath cfg out) with
      | true => exact Or.inr (Or.inr (Or.inl ⟨rfl, rfl, rfl, by simp [check, hl, he, hc]⟩))
      | false => exact Or.inr (Or.inr (Or.inr ⟨rfl, rfl, rfl, by simp [check, hl, he, hc]⟩))

/-- Every tool-invocation event in a `check` trace names that call's config. -/
theorem invokeTool_mem_check (w : World) (cp cfg : String) (out : Option String)
    (c : String) (h : Event.invokeTool c ∈ (check w cp cfg out).1) : c = cfg := by
  rcases check_cases w cp cfg out with ⟨-, hc⟩ | ⟨-, -, hc⟩ | ⟨-, -, -, hc⟩ | ⟨-, -, -, hc⟩ <;>
    rw [hc] at h <;> simp_all

/-- A copy event occurs in a `check` trace only with the canonical source and
destination, and only when the whole call succeeded after a successful tool
run. -/
theorem copyLog_mem_check (w : World) (cp cfg : String) (out : Option String)
    (src dst : String) (h : Event.copyLog src dst ∈ (check w cp cfg out).1) :
    src = srcPath cp cfg ∧ dst = dstPath cfg out ∧ (check w cp cfg out).2 = none ∧
    (w.tool cfg).launchOk = true ∧ (w.tool cfg).exitSuccess = true := by
  rcases check_cases w cp cfg out with ⟨-, hc⟩ | ⟨-, -, hc⟩ | ⟨hl, he, -, hc⟩ | ⟨-, -, -, hc⟩ <;>
    rw [hc] at h <;> simp_all

/-- A successful `check` has the two-event trace: invoke, then copy. -/
theorem check_none_trace (w : World) (cp cfg : String) (out : Option String)
    (h : (check w cp cfg out).2 = none) :
    (check w cp cfg out).1 =
      [Event.invokeTool cfg, Event.copyLog (srcPath cp cfg) (dstPath cfg out)] := by
  rcases check_cases w cp cfg out with ⟨-, hc⟩ | ⟨-, -, hc⟩ | ⟨-, -, -, hc⟩ | ⟨-, -, -, hc⟩ <;>
    rw [hc] at h ⊢ <;> simp_all

/-- `check` never emits a temp-config creation event. -/
theorem createTempConfig_not_mem_check (w : World) (cp cfg : String) (out : Option String)
    (n : String) : Event.createTempConfig n ∉ (check w cp cfg out).1 := by
  rcases check_cases w cp cfg out with ⟨-, hc⟩ | ⟨-, -, hc⟩ | ⟨-, -, -, hc⟩ | ⟨-, -, -, hc⟩ <;>
    rw [hc] <;> simp

/-- `copiesTo` detects exactly the copy events with the given destination. -/
theorem copiesTo_iff (tr : List Event) (d : String) :
    copiesTo tr d = true ↔ ∃ src, Event.copyLog src d ∈ tr := by
  unfold copiesTo
  rw [List.any_eq_true]
  constructor
  · rintro ⟨e, he, hp⟩
    cases e with
    | invokeTool c => simp at hp
    | createTempConfig n => simp at hp
    | copyLog s d2 =>
      simp only [beq_iff_eq] at hp
      exact ⟨s, hp ▸ he⟩
  · rintro ⟨src, hm⟩
    exact ⟨Event.copyLog src d, hm, by simp⟩

/-- `copiesTo` over an appended trace. -/
theorem copiesTo_append (a b : List Event) (d : String) :
    copiesTo (a ++ b) d = (copiesTo a d || copiesTo b d) := by
  simp [copiesTo, List.any_append]

/-- `copiesTo` ignores temp-config creation events. -/
theorem copiesTo_cons_temp (n : String) (tr : List Event) (d : String) :
    copiesTo (Event.createTempConfig n :: tr) d = copiesTo tr d := by
  simp [copiesTo]

/-- The destination under an output override does not depend on the config. -/
theorem dstPath_override (cfg o : String) : dstPath cfg (some o) = "logs/" ++ o ++ "_logs.txt" :=
  rfl

/-- A `check` trace holds no copy to any other destination. -/
theorem copiesTo_check_other (w : World) (cp cfg : String) (out : Option String) (d : String)
    (hne : d ≠ dstPath cfg out) : copiesTo (check w cp cfg out).1 d = false := by
  cases hc : copiesTo (check w cp cfg out).1 d with
  | false => rfl
  | true =>
    obtain ⟨src, hmem⟩ := (copiesTo_iff _ _).mp hc
    obtain ⟨-, hdst, -⟩ := copyLog_mem_check w cp cfg out src d hmem
    exact absurd hdst hne

/-- The two-event success trace copies to its destination. -/
theorem copiesTo_invoke_copy (c src dst d : String) (h : dst = d) :
    copiesTo [Event.invokeTool c, Event.copyLog src dst] d = true := by
  simp [copiesTo, h]

/-- A successful inner integration phase of CI mode has produced
`logs/ci_integration_logs.txt` and seen it end with the terminator. -/
theorem check_ci_integration_success (w : World) (cp : String)
    (hs : (check_ci_integration w cp).2 = none) :
    copiesTo (check_ci_integration w cp).1 "logs/ci_integration_logs.txt" = true ∧
    ∃ logi, w.readFile "logs/ci_integration_logs.txt" = some logi ∧
      strEndsWith logi "ICEs:\n" = true := by
  cases hT : create_temp_config_content (w.diffLines "config/integration.toml") with
  | none =>
    have heq : check_ci_integration w cp =
        ([Event.createTempConfig "integration"], some Abort.sliceOutOfBounds) := by
      unfold check_ci_integration; rw [hT]
    rw [heq] at hs; simp at hs
  | some cfgContent =>
    cases hc : check w cp (w.tempPath "integration") (some "ci_integration") with
    | mk tr ab =>
      cases ab with
      | some a =>
        have heq : check_ci_integration w cp = (Event.createTempConfig "integration" :: tr, some a) := by
          unfold check_ci_integration; rw [hT, hc]
        rw [heq] at hs; simp at hs
      | none =>
        cases hr : w.readFile "logs/ci_integration_logs.txt" with
        | none =>
          have heq : check_ci_integration w cp =
              (Event.createTempConfig "integration" :: tr,
               some (Abort.readFailed "logs/ci_integration_logs.txt")) := by
            unfold check_ci_integration; rw [hT, hc, hr]
          rw [heq] at hs; simp at hs
        | some logi =>
          by_cases hend : strEndsWith logi "ICEs:\n" = true
          · have heq : check_ci_integration w cp =
                (Event.createTempConfig "integration" :: tr, none) := by
              simp only [check_ci_integration, hT, hc, hr]
              rw [if_pos hend]
            rw [heq]
            refine ⟨?_, logi, rfl, hend⟩
            rw [copiesTo_cons_temp]
            have h2 : (check w cp (w.tempPath "integration") (some "ci_integration")).2 = none := by
              rw [hc]
            have htr := check_none_trace w cp (w.tempPath "integration") (some "ci_integration") h2
            rw [hc] at htr
            rw [show tr = (tr, (none : Option Abort)).1 from rfl, htr]
            exact copiesTo_invoke_copy _ _ _ _ (by rw [dstPath_override]; decide)
          · have heq : check_ci_integration w cp =
                (Event.createTempConfig "integration" :: tr, some Abort.assertFailed) := by
              simp only [check_ci_integration, hT, hc, hr]
              rw [if_neg hend]
            rw [heq] at hs; simp at hs

/-- The trace of the inner integration phase of CI mode never copies to
`logs/ci_passes_logs.txt`; only `check_ci_integration`'s own destination is
written. -/
theorem check_ci_integration_other (w : World) (cp d : String)
    (hne : d ≠ "logs/ci_integration_logs.txt") :
    copiesTo (check_ci_integration w cp).1 d = false := by
  have hne2 : d ≠ dstPath (w.tempPath "integration") (some "ci_integration") := by
    rw [dstPath_override]
    intro h
    exact hne (by rw [h]; decide)
  cases hT : create_temp_config_content (w.diffLines "config/integration.toml") with
  | none =>
    have heq : check_ci_integration w cp =
        ([Event.createTempConfig "integration"], some Abort.sliceOutOfBounds) := by
      unfold check_ci_integration; rw [hT]
    rw [heq]
    simp [copiesTo]
  | some cfgContent =>
    cases hc : check w cp (w.tempPath "integration") (some "ci_integration") with
    | mk tr ab =>
      have htr : copiesTo tr d = false := by
        have := copiesTo_check_other w cp (w.tempPath "integration") (some "ci_integration") d hne2
        rw [hc] at this
        exact this
      cases ab with
      | some a =>
        have heq : check_ci_integration w cp = (Event.createTempConfig "integration" :: tr, some a) := by
          unfold check_ci_integration; rw [hT, hc]
        rw [heq, copiesTo_cons_temp]
        exact htr
      | none =>
        cases hr : w.readFile "logs/ci_integration_logs.txt" with
        | none =>
          have heq : check_ci_integration w cp =
              (Event.createTempConfig "integration" :: tr,
               some (Abort.readFailed "logs/ci_integration_logs.txt")) := by
            unfold check_ci_integration; rw [hT, hc, hr]
          rw [heq, copiesTo_cons_temp]
          exact htr
        | some logi =>
          by_cases hend : strEndsWith logi "ICEs:\n" = true
          · have heq : check_ci_integration w cp =
                (Event.createTempConfig "integration" :: tr, none) := by
              simp only [check_ci_integration, hT, hc, hr]
              rw [if_pos hend]
            rw [heq, copiesTo_cons_temp]
            exact htr
          · have heq : check_ci_integration w cp =
                (Event.createTempConfig "integration" :: tr, some Abort.assertFailed) := by
              simp only [check_ci_integration, hT, hc, hr]
              rw [if_neg hend]
            rw [heq, copiesTo_cons_temp]
            exact htr

/-- `check_integration` returns exactly the trace of its inner `check`. -/
theorem check_integration_fst (w : World) (cp : String) :
    (check_integration w cp).1 = (check w cp "../config/integration.toml" none).1 := by
  unfold check_integration
  split
  next tr a heq => rw [heq]
  next tr heq =>
    rw [heq]
    split
    · rfl
    · split <;> rfl

/-- `check_passes` returns exactly the trace of its inner `check`. -/
theorem check_passes_fst (w : World) (cp : String) :
    (check_passes w cp).1 = (check w cp "../config/passes.toml" none).1 := by
  unfold check_passes
  split
  next tr a heq => rw [heq]
  next tr heq =>
    rw [heq]
    split
    · rfl
    · split <;> rfl

/-- Main walk of `check_ci`: a successful run produced both CI log artifacts
and both assertions held; a violating ci_passes log forces an abort with no
integration-phase work; and an integration-phase copy can only follow a
passing ci_passes phase, with all ci_passes copies in the earlier part of the
trace. -/
theorem check_ci_main (w : World) (cp : String) :
    ((check_ci w cp).2 = none →
      copiesTo (check_ci w cp).1 "logs/ci_passes_logs.txt" = true ∧
      copiesTo (check_ci w cp).1 "logs/ci_integration_logs.txt" = true ∧
      (∃ logp, w.readFile "logs/ci_passes_logs.txt" = some logp ∧
        strContains logp "clippy::" = false ∧ strEndsWith logp "ICEs:\n" = true) ∧
      (∃ logi, w.readFile "logs/ci_integration_logs.txt" = some logi ∧
        strEndsWith logi "ICEs:\n" = true)) ∧
    (∀ logp, w.readFile "logs/ci_passes_logs.txt" = some logp →
      ¬(strContains logp "clippy::" = false ∧ strEndsWith logp "ICEs:\n" = true) →
      (check_ci w cp).2 ≠ none ∧
      copiesTo (check_ci w cp).1 "logs/ci_integration_logs.txt" = false ∧
      Event.createTempConfig "integration" ∉ (check_ci w cp).1) ∧
    (copiesTo (check_ci w cp).1 "logs/ci_integration_logs.txt" = true →
      ∃ logp tr1 tr2,
        w.readFile "logs/ci_passes_logs.txt" = some logp ∧
        strContains logp "clippy::" = false ∧ strEndsWith logp "ICEs:\n" = true ∧
        (check_ci w cp).1 = tr1 ++ tr2 ∧
        copiesTo tr1 "logs/ci_passes_logs.txt" = true ∧
        copiesTo tr1 "logs/ci_integration_logs.txt" = false ∧
        copiesTo tr2 "logs/ci_integration_logs.txt" = true) := by
  cases hT : create_temp_config_content (w.diffLines "config/passes.toml") with
  | none =>
    have heq : check_ci w cp = ([Event.createTempConfig "passes"], some Abort.sliceOutOfBounds) := by
      unfold check_ci; rw [hT]
    refine ⟨?_, ?_, ?_⟩
    · intro hs; rw [heq] at hs; simp at hs
    · intro logp hrp hbad
      rw [heq]
      refine ⟨by simp, by simp [copiesTo], by decide⟩
    · intro hcc; rw [heq] at hcc; simp [copiesTo] at hcc
  | some c0 =>
    cases hc1 : check w cp (w.tempPath "passes") (some "ci_passes") with
    | mk tr1 ab1 =>
      have htr1other : copiesTo tr1 "logs/ci_integration_logs.txt" = false := by
        have h := copiesTo_check_other w cp (w.tempPath "passes") (some "ci_passes")
          "logs/ci_integration_logs.txt" (by rw [dstPath_override]; decide)
        rw [hc1] at h
        exact h
      have hnotemp : ∀ n, Event.createTempConfig n ∉ tr1 := by
        intro n hmem
        have h := createTempConfig_not_mem_check w cp (w.tempPath "passes") (some "ci_passes") n
        rw [hc1] at h
        exact h hmem
      cases ab1 with
      | some a =>
        have heq : check_ci w cp = (Event.createTempConfig "passes" :: tr1, some a) := by
          unfold check_ci; rw [hT, hc1]
        refine ⟨?_, ?_, ?_⟩
        · intro hs; rw [heq] at hs; simp at hs
        · intro logp hrp hbad
          rw [heq]
          refine ⟨by simp, by rw [copiesTo_cons_temp]; exact htr1other, ?_⟩
          intro hmem
          rcases List.mem_cons.mp hmem with h | h
          · exact absurd h (by decide)
          · exact hnotemp _ h
        · intro hcc
          rw [heq, copiesTo_cons_temp, htr1other] at hcc
          exact absurd hcc (by decide)
      | none =>
        have hpassesCopies : copiesTo tr1 "logs/ci_passes_logs.txt" = true := by
          have h2 : (check w cp (w.tempPath "passes") (some "ci_passes")).2 = none := by rw [hc1]
          have htr := check_none_trace w cp (w.tempPath "passes") (some "ci_passes") h2
          rw [hc1] at htr
          rw [show tr1 = (tr1, (none : Option Abort)).1 from rfl, htr]
          exact copiesTo_invoke_copy _ _ _ _ (by rw [dstPath_override]; decide)
        cases hr : w.readFile "logs/ci_passes_logs.txt" with
        | none =>
          have heq : check_ci w cp =
              (Event.createTempConfig "passes" :: tr1,
               some (Abort.readFailed "logs/ci_passes_logs.txt")) := by
            unfold check_ci; rw [hT, hc1, hr]
          refine ⟨?_, ?_, ?_⟩
          · intro hs; rw [heq] at hs; simp at hs
          · intro logp hrp hbad; simp at hrp
          · intro hcc
            rw [heq, copiesTo_cons_temp, htr1other] at hcc
            exact absurd hcc (by decide)
        | some logp0 =>
          by_cases hcond : (!strContains logp0 "clippy::" && strEndsWith logp0 "ICEs:\n") = true
          · have hcondP : strContains logp0 "clippy::" = false ∧
                strEndsWith logp0 "ICEs:\n" = true := by
              simpa [Bool.and_eq_true, Bool.not_eq_true'] using hcond
            cases hI : check_ci_integration w cp with
            | mk tr2 ab2 =>
              have heq : check_ci w cp =
                  (Event.createTempConfig "passes" :: tr1 ++ tr2, ab2) := by
                simp only [check_ci, hT, hc1, hr]
                rw [if_pos hcond, hI]
              have heq1 : (check_ci w cp).1 =
                  Event.createTempConfig "passes" :: (tr1 ++ tr2) := by
                rw [heq]
                simp
              refine ⟨?_, ?_, ?_⟩
              · intro hs
                rw [heq] at hs
                have hs2 : ab2 = none := hs
                have hsucc := check_ci_integration_success w cp (by rw [hI]; exact hs2)
                obtain ⟨hciI, hlogi⟩ := hsucc
                have hciI2 : copiesTo tr2 "logs/ci_integration_logs.txt" = true := by
                  rw [hI] at hciI
                  exact hciI
                refine ⟨?_, ?_, ⟨logp0, rfl, hcondP.1, hcondP.2⟩, hlogi⟩
                · rw [heq1, copiesTo_cons_temp, copiesTo_append, hpassesCopies]
                  simp
                · rw [heq1, copiesTo_cons_temp, copiesTo_append, htr1other, hciI2]
                  simp
              · intro logp hrp hbad
                obtain rfl : logp0 = logp := by injection hrp
                exact absurd hcondP hbad
              · intro hcc
                rw [heq1, copiesTo_cons_temp, copiesTo_append, htr1other] at hcc
                simp only [Bool.false_or] at hcc
                refine ⟨logp0, Event.createTempConfig "passes" :: tr1, tr2,
                  rfl, hcondP.1, hcondP.2, by rw [heq1]; simp, ?_, ?_, hcc⟩
                · rw [copiesTo_cons_temp]; exact hpassesCopies
                · rw [copiesTo_cons_temp]; exact htr1other
          · have heq : check_ci w cp =
                (Event.createTempConfig "passes" :: tr1, some Abort.assertFailed) := by
              simp only [check_ci, hT, hc1, hr]
              rw [if_neg hcond]
            refine ⟨?_, ?_, ?_⟩
            · intro hs; rw [heq] at hs; simp at hs
            · intro logp hrp hbad
              rw [heq]
              refine ⟨by simp, by rw [copiesTo_cons_temp]; exact htr1other, ?_⟩
              intro hmem
              rcases List.mem_cons.mp hmem with h | h
              · exact absurd h (by decide)
              · exact hnotemp _ h
            · intro hcc
              rw [heq, copiesTo_cons_temp, htr1other] at hcc
              exact absurd hcc (by decide)

/-! Claim theorems. -/

/-- C1: in passes mode the run aborts unless the log text at
`logs/passes_logs.txt` both does not contain `"clippy::"` and ends with
`"ICEs:\n"`: whenever either condition fails the result is an abort, and a
non-aborting run guarantees both conditions, for every oracle (hence for every
log the external tool may produce). -/
theorem c1_passes_assertions (w : World) (cp log : String)
    (hread : w.readFile "logs/passes_logs.txt" = some log) :
    (¬(strContains log "clippy::" = false ∧ strEndsWith log "ICEs:\n" = true) →
      (check_passes w cp).2 ≠ none) ∧
    ((check_passes w cp).2 = none →
      strContains log "clippy::" = false ∧ strEndsWith log "ICEs:\n" = true) := by
  unfold check_passes
  split
  next tr a heq => exact ⟨fun _ h => by simp at h, fun h => by simp at h⟩
  next tr heq =>
    simp only [hread]
    split
    next hc =>
      simp only [Bool.and_eq_true, Bool.not_eq_true'] at hc
      exact ⟨fun hbad => absurd hc hbad, fun _ => hc⟩
    next hc => exact ⟨fun _ h => by simp at h, fun h => by simp at h⟩

/-- C1 witness: a passes log containing a lint finding makes the run abort. -/
theorem c1_passes_assertions_witness :
    (check_passes wBadPassesLog "clippy").2 ≠ none :=
  (c1_passes_assertions wBadPassesLog "clippy" "clippy::warn\nICEs:\n" (by decide)).1 (by decide)

/-- C2: in integration mode the run succeeds on a log ending with `"ICEs:\n"`
(whatever else it contains — the tool, copy and read being the only other
failure sources), and aborts on every log that does not end with
`"ICEs:\n"`. -/
theorem c2_integration_assertion (w : World) (cp log : String)
    (hread : w.readFile "logs/integration_logs.txt" = some log) :
    ((w.tool "../config/integration.toml").launchOk = true →
      (w.tool "../config/integration.toml").exitSuccess = true →
      w.copyOk (srcPath cp "../config/integration.toml")
        (dstPath "../config/integration.toml" none) = true →
      strEndsWith log "ICEs:\n" = true →
      (check_integration w cp).2 = none) ∧
    (strEndsWith log "ICEs:\n" = false → (check_integration w cp).2 ≠ none) := by
  constructor
  · intro hl he hc hend
    rcases check_cases w cp "../config/integration.toml" none with
      ⟨h1, -⟩ | ⟨-, h2, -⟩ | ⟨-, -, -, hch⟩ | ⟨-, -, h3, -⟩
    · rw [hl] at h1; simp at h1
    · rw [he] at h2; simp at h2
    · unfold check_integration
      rw [hch]
      simp [hread, hend]
    · rw [hc] at h3; simp at h3
  · intro hend
    rcases check_cases w cp "../config/integration.toml" none with
      ⟨-, hch⟩ | ⟨-, -, hch⟩ | ⟨-, -, -, hch⟩ | ⟨-, -, -, hch⟩ <;>
      · unfold check_integration
        rw [hch]
        simp [hread, hend]

/-- C2 witness: an integration log that contains `"clippy::"` but ends with
`"ICEs:\n"` lets the run succeed. -/
theorem c2_integration_assertion_witness :
    (check_integration wOk "clippy").2 = none ∧
    strContains "clippy::x\nICEs:\n" "clippy::" = true :=
  ⟨(c2_integration_assertion wOk "clippy" "clippy::x\nICEs:\n" (by decide)).1
      (by decide) (by decide) (by decide) (by decide),
    by decide⟩

/-- C4: when the tool exits non-zero, `check` aborts with the captured exit
status and stderr and its trace contains no copy event; conversely, any copy
event in a `check` trace implies the tool exited successfully and the call
succeeded — so copying happens only after the tool reports success, for every
configuration path and every tool outcome. -/
theorem c4_check_tool_failure (w : World) (cp cfg : String) (out : Option String) :
    ((w.tool cfg).launchOk = true → (w.tool cfg).exitSuccess = false →
      check w cp cfg out =
        ([Event.invokeTool cfg],
         some (Abort.toolNonZero (w.tool cfg).status (w.tool cfg).stderr))) ∧
    ∀ src dst, Event.copyLog src dst ∈ (check w cp cfg out).1 →
      (w.tool cfg).exitSuccess = true ∧ (check w cp cfg out).2 = none := by
  constructor
  · intro hl he
    rcases check_cases w cp cfg out with
      ⟨h1, -⟩ | ⟨-, -, hch⟩ | ⟨-, h2, -, -⟩ | ⟨-, h2, -, -⟩
    · rw [hl] at h1; simp at h1
    · exact hch
    · rw [he] at h2; simp at h2
    · rw [he] at h2; simp at h2
  · intro src dst hmem
    have h := copyLog_mem_check w cp cfg out src dst hmem
    exact ⟨h.2.2.2.2, h.2.2.1⟩

/-- C4 witness: with exit status 101 and stderr `boom`, `check` aborts with
exactly those and a copy-free trace. -/
theorem c4_check_tool_failure_witness :
    check wToolFail "clippy" "../config/passes.toml" none =
      ([Event.invokeTool "../config/passes.toml"],
       some (Abort.toolNonZero 101 "boom")) :=
  (c4_check_tool_failure wToolFail "clippy" "../config/passes.toml" none).1
    (by decide) (by decide)

/-- C5: in All mode the trace is the complete integration-check trace followed
by passes-check events: integration-config invocations all come in the first
part, passes-config invocations only in the second, the second part is empty
whenever the integration check aborted, and it is exactly the passes-check
trace when the integration check succeeded. -/
theorem c5_all_mode_order (w : World) (cp : String) :
    ∃ tr2,
      (run_mode w cp Mode.All).1 = (check_integration w cp).1 ++ tr2 ∧
      (∀ c, Event.invokeTool c ∈ (check_integration w cp).1 →
        c = "../config/integration.toml") ∧
      (∀ c, Event.invokeTool c ∈ tr2 → c = "../config/passes.toml") ∧
      ((check_integration w cp).2 = none →
        tr2 = (check_passes w cp).1 ∧ (run_mode w cp Mode.All).2 = (check_passes w cp).2) ∧
      (∀ a, (check_integration w cp).2 = some a →
        tr2 = [] ∧ (run_mode w cp Mode.All).2 = some a) := by
  have hint : ∀ c, Event.invokeTool c ∈ (check_integration w cp).1 →
      c = "../config/integration.toml" := by
    intro c hc
    rw [check_integration_fst w cp] at hc
    exact invokeTool_mem_check w cp _ none c hc
  have hpass : ∀ c, Event.invokeTool c ∈ (check_passes w cp).1 →
      c = "../config/passes.toml" := by
    intro c hc
    rw [check_passes_fst w cp] at hc
    exact invokeTool_mem_check w cp _ none c hc
  cases hI : check_integration w cp with
  | mk trI abI =>
    rw [hI] at hint
    cases abI with
    | some a =>
      have hrun : run_mode w cp Mode.All = (trI, some a) := by
        unfold run_mode
        rw [hI]
      refine ⟨[], ?_, hint, ?_, ?_, ?_⟩
      · rw [hrun]; simp
      · intro c hc; simp at hc
      · intro h; simp at h
      · intro a2 h2
        simp only at h2
        obtain rfl : a = a2 := by simpa using h2
        rw [hrun]
        exact ⟨rfl, rfl⟩
    | none =>
      cases hP : check_passes w cp with
      | mk trP abP =>
        rw [hP] at hpass
        have hrun : run_mode w cp Mode.All = (trI ++ trP, abP) := by
          unfold run_mode
          rw [hI, hP]
        refine ⟨trP, ?_, hint, hpass, ?_, ?_⟩
        · rw [hrun]
        · intro h
          rw [hrun]
          exact ⟨rfl, rfl⟩
        · intro a2 h2
          simp at h2

/-- C5 witness: the decomposition at the all-success oracle. -/
theorem c5_all_mode_order_witness :
    ∃ tr2,
      (run_mode wOk "clippy" Mode.All).1 = (check_integration wOk "clippy").1 ++ tr2 ∧
      (∀ c, Event.invokeTool c ∈ (check_integration wOk "clippy").1 →
        c = "../config/integration.toml") ∧
      (∀ c, Event.invokeTool c ∈ tr2 → c = "../config/passes.toml") ∧
      ((check_integration wOk "clippy").2 = none →
        tr2 = (check_passes wOk "clippy").1 ∧
        (run_mode wOk "clippy" Mode.All).2 = (check_passes wOk "clippy").2) ∧
      (∀ a, (check_integration wOk "clippy").2 = some a →
        tr2 = [] ∧ (run_mode wOk "clippy" Mode.All).2 = some a) :=
  c5_all_mode_order wOk "clippy"

/-- C6: mode parsing succeeds exactly on the four lowercase tokens `all`,
`passes`, `integration`, `ci` (mapped to the four variants), and every other
string fails with an error message that contains the offending token (the
token is a suffix of the message); no partial or case-insensitive matches. -/
theorem c6_mode_from_str_exact :
    (Mode.from_str "all" = .ok .All ∧ Mode.from_str "passes" = .ok .Passes ∧
      Mode.from_str "integration" = .ok .Integration ∧ Mode.from_str "ci" = .ok .CI) ∧
    ∀ s : String, s ∉ (["all", "passes", "integration", "ci"] : List String) →
      Mode.from_str s = .error ("Invalid option " ++ s) ∧
      s.data <:+ ("Invalid option " ++ s).data := by
  refine ⟨⟨rfl, rfl, rfl, rfl⟩, fun s hs => ?_⟩
  simp only [List.mem_cons, List.not_mem_nil, or_false, not_or] at hs
  obtain ⟨h1, h2, h3, h4⟩ := hs
  refine ⟨from_str_eq_error s h1 h2 h3 h4, ?_⟩
  rw [String.data_append]
  exact List.suffix_append _ _

/-- C6 witness: the capitalized token `Passes` is rejected with a message
containing it. -/
theorem c6_mode_from_str_exact_witness :
    Mode.from_str "Passes" = .error ("Invalid option " ++ "Passes") ∧
    "Passes".data <:+ ("Invalid option " ++ "Passes").data :=
  c6_mode_from_str_exact.2 "Passes" (by decide)

/-- C8: for every unrecognized mode token, the program exits with the parse
error and an empty event trace: no subprocess was launched and no file was
copied, for every oracle. -/
theorem c8_bad_mode_no_work (w : World) (s : String)
    (hs : s ∉ (["all", "passes", "integration", "ci"] : List String)) :
    main_prog w s = ([], some (Abort.parseError ("Invalid option " ++ s))) := by
  simp only [List.mem_cons, List.not_mem_nil, or_false, not_or] at hs
  obtain ⟨h1, h2, h3, h4⟩ := hs
  unfold main_prog
  rw [from_str_eq_error s h1 h2 h3 h4]

/-- C8 witness: the misspelled token `integartion` produces the parse error
and an empty trace. -/
theorem c8_bad_mode_no_work_witness :
    main_prog wOk "integartion" =
      ([], some (Abort.parseError ("Invalid option " ++ "integartion"))) :=
  c8_bad_mode_no_work wOk "integartion" (by decide)

/-- C3: the derived temp-config content is the `[crates]` header followed by
exactly the strictly-added diff lines with the `+` marker stripped: on
`["+crateA", "-crateB", "+crateC"]` it is `"[crates]\ncrateA\ncrateC\n"`, and
the removed line `-crateB` is filtered out. -/
theorem c3_create_temp_config_example :
    create_temp_config_content ["+crateA", "-crateB", "+crateC"] =
      some "[crates]\ncrateA\ncrateC\n" ∧
    grepAddedLines ["+crateA", "-crateB", "+crateC"] = ["+crateA", "+crateC"] := by
  decide

/-- C7: a CI run that does not abort has copied both distinctly named log
artifacts `logs/ci_passes_logs.txt` and `logs/ci_integration_logs.txt` (the
override form of the `logs/<name>_logs.txt` scheme), with the passes
assertions checked on the ci_passes log and the integration assertion on the
ci_integration log; the witness below runs it with both diff-derived
configurations empty. -/
theorem c7_ci_two_artifacts (w : World) (cp : String)
    (hs : (check_ci w cp).2 = none) :
    copiesTo (check_ci w cp).1 "logs/ci_passes_logs.txt" = true ∧
    copiesTo (check_ci w cp).1 "logs/ci_integration_logs.txt" = true ∧
    (∃ logp, w.readFile "logs/ci_passes_logs.txt" = some logp ∧
      strContains logp "clippy::" = false ∧ strEndsWith logp "ICEs:\n" = true) ∧
    (∃ logi, w.readFile "logs/ci_integration_logs.txt" = some logi ∧
      strEndsWith logi "ICEs:\n" = true) :=
  (check_ci_main w cp).1 hs

/-- C7 witness: with both diffs empty, the successful CI run still produced
both named artifacts. -/
theorem c7_ci_two_artifacts_witness :
    wOk.diffLines "config/passes.toml" = [] ∧
    wOk.diffLines "config/integration.toml" = [] ∧
    copiesTo (check_ci wOk "clippy").1 "logs/ci_passes_logs.txt" = true ∧
    copiesTo (check_ci wOk "clippy").1 "logs/ci_integration_logs.txt" = true :=
  ⟨rfl, rfl, (c7_ci_two_artifacts wOk "clippy" (by decide)).1,
    (c7_ci_two_artifacts wOk "clippy" (by decide)).2.1⟩

/-- C9: in CI mode the passes-derived phase runs and must pass first: a
ci_passes log violating the passes assertions aborts the run with no
integration temp config created and no copy to `logs/ci_integration_logs.txt`
ever performed; and whenever `logs/ci_integration_logs.txt` was copied, the
trace splits into an earlier part that copied `logs/ci_passes_logs.txt` (and
not the integration log) and a later part with the integration-log copy, with
the ci_passes assertions having held. -/
theorem c9_ci_passes_then_integration (w : World) (cp : String) :
    (∀ logp, w.readFile "logs/ci_passes_logs.txt" = some logp →
      ¬(strContains logp "clippy::" = false ∧ strEndsWith logp "ICEs:\n" = true) →
      (check_ci w cp).2 ≠ none ∧
      copiesTo (check_ci w cp).1 "logs/ci_integration_logs.txt" = false ∧
      Event.createTempConfig "integration" ∉ (check_ci w cp).1) ∧
    (copiesTo (check_ci w cp).1 "logs/ci_integration_logs.txt" = true →
      ∃ logp tr1 tr2,
        w.readFile "logs/ci_passes_logs.txt" = some logp ∧
        strContains logp "clippy::" = false ∧ strEndsWith logp "ICEs:\n" = true ∧
        (check_ci w cp).1 = tr1 ++ tr2 ∧
        copiesTo tr1 "logs/ci_passes_logs.txt" = true ∧
        copiesTo tr1 "logs/ci_integration_logs.txt" = false ∧
        copiesTo tr2 "logs/ci_integration_logs.txt" = true) :=
  ⟨(check_ci_main w cp).2.1, (check_ci_main w cp).2.2⟩

/-- C9 witness: a lint finding in the ci_passes log aborts the CI run before
any integration-phase work. -/
theorem c9_ci_passes_then_integration_witness :
    (check_ci wBadCiPassesLog "clippy").2 ≠ none ∧
    copiesTo (check_ci wBadCiPassesLog "clippy").1 "logs/ci_integration_logs.txt" = false ∧
    Event.createTempConfig "integration" ∉ (check_ci wBadCiPassesLog "clippy").1 :=
  (c9_ci_passes_then_integration wBadCiPassesLog "clippy").1 "clippy::warn\nICEs:\n"
    (by decide) (by decide)

/-- C10: every grep-surviving line starts with the single-byte character `+`,
so the byte slice `l[1..]` never panics and equals the line with the leading
`+` removed; consequently the temp-config content is always produced. -/
theorem c10_slice_never_panics (diff : List String) :
    (∀ l ∈ grepAddedLines diff, ∃ r, sliceFrom1 l = some r ∧ l.data = '+' :: r.data) ∧
    ∃ s, create_temp_config_content diff = some s := by
  have key : ∀ l ∈ grepAddedLines diff, ∃ r, sliceFrom1 l = some r ∧ l.data = '+' :: r.data :=
    fun l hl => matchesAddedWord_sliceFrom1 l (List.mem_filter.mp hl).2
  refine ⟨key, ?_⟩
  obtain ⟨rs, hrs⟩ := sliceLines_all_some _ fun l hl => (key l hl).imp fun r hr => hr.1
  refine ⟨"[crates]\n" ++ String.join (rs.map (· ++ "\n")), ?_⟩
  simp [create_temp_config_content, hrs]

/-- C10 witness: on the diff lines `["+foo", "-baz", "+É"]` all slices succeed
and the content is produced. -/
theorem c10_slice_never_panics_witness :
    (∀ l ∈ grepAddedLines ["+foo", "-baz", "+É"],
      ∃ r, sliceFrom1 l = some r ∧ l.data = '+' :: r.data) ∧
    ∃ s, create_temp_config_content ["+foo", "-baz", "+É"] = some s :=
  c10_slice_never_panics ["+foo", "-baz", "+É"]

end Lintcheck
